import Mathlib

/-!
# Verification of the evntly booking / payment-reconciliation engine

A shallow embedding of the core logic of the `evntly` event-registration
backend: the registration route (`src/routes/register.ts`), the Razorpay
webhook and verify-payment routes (`src/routes/webhooks.ts`), and the
activity status derivation (`src/routes/activities.ts`).

The database is modelled as lists of rows; `select ... limit 1` becomes
`List.find?` and `update ... where id = _` becomes a map over the list.
Generated ids (`generateSecureRandomId`) are modelled by a `nextId`
counter.  External collaborators (HMAC-SHA256, the Razorpay order-create
call, the Resend email sender) are parameters of the operations; the code
only compares HMAC outputs and ignores the email result, so their
internals are irrelevant to the properties proved here.  Timestamp-only
columns (`createdAt`, `updatedAt`, `deletedAt`) are not modelled: the code
never branches on them.
-/

namespace Evntly

/-- A user row (`users` table, the fields touched by registration). -/
structure User where
  id : Nat
  firstName : String
  lastName : String
  email : Option String
  phone : Option String
  isActive : Bool
deriving Repr, DecidableEq

/-- An organizer row (`organizers` table, the fields the engine reads). -/
structure Organizer where
  id : Nat
  organizationName : String
  organizerEmail : String
  systemEmail : Option String
  resendApiKey : Option String
  razorpayKeyId : Option String
  razorpayKeySecret : Option String
  razorpayWebhookSecret : Option String
  websiteDomain : Option String
deriving Repr, DecidableEq

/-- An activity row (`activities` table).  `availableSlots`, `bookedSlots`
and `registrationFee` are nullable in the schema (integer columns with a
default but no NOT NULL), hence `Option Nat` with the route-level `?? 0`
defaults applied where the code applies them.  One-time activities carry
`startDateTime`/`endDateTime` as epoch instants (`Int`). -/
structure Activity where
  id : Nat
  slug : String
  name : String
  organizerId : Option Nat
  type : String
  status : String
  isActive : Bool
  isRegistrationOpen : Bool
  availableSlots : Option Nat
  bookedSlots : Option Nat
  registrationFee : Option Nat
  startDateTime : Option Int
  endDateTime : Option Int
deriving Repr, DecidableEq

/-- A registration row (`activity_registrations` table). -/
structure Registration where
  id : Nat
  activityId : Option Nat
  userId : Option Nat
  status : String
  ticketCount : Nat
deriving Repr, DecidableEq

/-- A payment row (`payments` table).  The stored decimal `amount` string
is kept as the paise amount `registrationFee * ticketCount` that the code
also sends to the gateway. -/
structure Payment where
  id : Nat
  registrationId : Option Nat
  amountPaise : Nat
  status : String
  paymentMethod : String
  providerPaymentId : Option String
deriving Repr, DecidableEq

/-- A weekly schedule row (`activity_schedules` table).  Only the
hour/minute/second components of the stored timestamps are meaningful;
the status derivation rebuilds today's window from them via
`setHours(h, m, s, 0)`. -/
structure Schedule where
  dayOfWeek : String
  startH : Nat
  startM : Nat
  startS : Nat
  endH : Nat
  endM : Nat
  endS : Nat
deriving Repr, DecidableEq

/-- Milliseconds since local midnight of a time-of-day built by
`setHours(h, m, s, 0)`. -/
def timeMs (h m s : Nat) : Nat :=
  ((h * 60 + m) * 60 + s) * 1000

/-- The JS weekday-name table: index `getDay()` (0 = Sunday). -/
def daysOfWeek : List String :=
  ["Sunday", "Monday", "Tuesday", "Wednesday", "Thursday", "Friday", "Saturday"]

/-- `getRecurringActivityStatus` (activities.ts:21-64): derive the status
of a recurring activity from its schedule rows and the current instant,
given as weekday index `nowDay` (`now.getDay()`) and milliseconds since
midnight `nowMs`. -/
def getRecurringActivityStatus (schedules : List Schedule)
    (nowDay : Nat) (nowMs : Nat) : String :=
  let currentDay := daysOfWeek.getD nowDay ""
  let upcomingThisWeek :=
    (List.range (6 - nowDay)).any fun i =>
      (schedules.find? fun s =>
        s.dayOfWeek == daysOfWeek.getD (nowDay + i + 1) "").isSome
  match schedules.find? (fun s => s.dayOfWeek == currentDay) with
  | some ts =>
      let startTime := timeMs ts.startH ts.startM ts.startS
      let endTime := timeMs ts.endH ts.endM ts.endS
      if startTime ≤ nowMs ∧ nowMs ≤ endTime then "live"
      else if nowMs < startTime then "upcoming"
      else if upcomingThisWeek then "upcoming" else "completed"
  | none =>
      if upcomingThisWeek then "upcoming" else "completed"

/-- Modelled from the spec: "any schedule entry exists on a later day of
the current week (not wrapping into next week)" — the spec-side reading
of the forward scan, quantifying over weekday indices strictly after
today's. -/
def hasLaterEntryThisWeek (schedules : List Schedule) (nowDay : Nat) : Bool :=
  (List.range 7).any fun j =>
    decide (nowDay < j) &&
      schedules.any (fun s => s.dayOfWeek == daysOfWeek.getD j "")

/-- One-time status derivation on the read path (activities.ts:118-130):
default `upcoming`; with both bounds present, `live` inside the closed
window, `completed` after it. -/
def oneTimeCurrentStatus (startDateTime endDateTime : Option Int)
    (now : Int) : String :=
  match startDateTime, endDateTime with
  | some s, some e =>
      if s ≤ now ∧ now ≤ e then "live"
      else if now > e then "completed"
      else "upcoming"
  | _, _ => "upcoming"

/-- What `GET /activities` returns for a one-time activity
(activities.ts:131-134): the stored row spread unchanged, plus the
derived `currentStatus` field. -/
structure EnrichedActivity where
  stored : Activity
  currentStatus : String
deriving Repr, DecidableEq

/-- The enrichment of a one-time activity on the read path: the stored
row is returned as-is and `currentStatus` is always derived from the time
window, with no inspection of the stored `status` field. -/
def enrichOneTime (a : Activity) (now : Int) : EnrichedActivity :=
  { stored := a
    currentStatus := oneTimeCurrentStatus a.startDateTime a.endDateTime now }

/-- The persistent store: one list of rows per table (primary keys are
assumed unique, as in the schema), a `nextId` counter standing for
`generateSecureRandomId`, and a counter of confirmation-notification
attempts (each `sendRegistrationEmail` call). -/
structure DB where
  users : List User
  organizers : List Organizer
  activities : List Activity
  registrations : List Registration
  payments : List Payment
  nextId : Nat
  notifications : Nat
deriving Repr, DecidableEq

/-- `update activities set ... where id = aid`. -/
def updateActivity (db : DB) (aid : Nat) (f : Activity → Activity) : DB :=
  { db with activities := db.activities.map fun a => if a.id = aid then f a else a }

/-- `update activity_registrations set ... where id = rid`. -/
def updateRegistration (db : DB) (rid : Nat) (f : Registration → Registration) : DB :=
  { db with registrations := db.registrations.map fun g => if g.id = rid then f g else g }

/-- `update payments set ... where id = pid`. -/
def updatePayment (db : DB) (pid : Nat) (f : Payment → Payment) : DB :=
  { db with payments := db.payments.map fun p => if p.id = pid then f p else p }

/-- Record one `sendRegistrationEmail` attempt (the call itself is
external; only the fact that it was attempted is observable here). -/
def bumpNotifications (db : DB) : DB :=
  { db with notifications := db.notifications + 1 }

/-- `select * from activities where slug = _ limit 1`. -/
def activityBySlug (db : DB) (slug : String) : Option Activity :=
  db.activities.find? fun a => a.slug == slug

/-- `select * from payments where provider_payment_id = _ limit 1`. -/
def paymentByOrder (db : DB) (orderId : String) : Option Payment :=
  db.payments.find? fun p => p.providerPaymentId == some orderId

/-- `select * from activity_registrations where id = _ limit 1`. -/
def registrationById (db : DB) (rid : Nat) : Option Registration :=
  db.registrations.find? fun g => g.id == rid

/-- `select * from activities where id = _ limit 1`. -/
def activityById (db : DB) (aid : Nat) : Option Activity :=
  db.activities.find? fun a => a.id == aid

/-- `select * from users where id = _ limit 1`. -/
def userById (db : DB) (uid : Nat) : Option User :=
  db.users.find? fun u => u.id == uid

/-- `select * from organizers where id = _ limit 1`. -/
def organizerById (db : DB) (oid : Nat) : Option Organizer :=
  db.organizers.find? fun o => o.id == oid

/-- `select * from activity_registrations where activity_id = _ and
user_id = _ limit 1` — note: no condition on `status` or `deletedAt`. -/
def registrationByActivityUser (db : DB) (aid uid : Nat) : Option Registration :=
  db.registrations.find? fun g =>
    g.activityId == some aid && g.userId == some uid

/-- JS truthiness of a nullable string column: non-null and non-empty. -/
def truthyStr : Option String → Bool
  | none => false
  | some s => s ≠ ""

/-- JS `String.prototype.trim`: strip leading and trailing whitespace. -/
def trimStr (s : String) : String :=
  String.mk (((s.data.dropWhile Char.isWhitespace).reverse.dropWhile
    Char.isWhitespace).reverse)

/-- `value?.trim()` followed by a truthiness test: the trimmed string when
it is non-empty, otherwise nothing. -/
def trimmedKey : Option String → Option String
  | none => none
  | some s => if trimStr s = "" then none else some (trimStr s)

/-- Request body of `POST /activities/:slug/register` (ticketCount
defaulted to 1 by the route before validation). -/
structure RegisterReq where
  firstName : String
  lastName : String
  email : Option String
  phone : Option String
  ticketCount : Nat
deriving Repr, DecidableEq

/-- User resolution (register.ts:102-109): look up by email when one was
supplied, otherwise by phone. -/
def findUserByContact (db : DB) (email phone : Option String) : Option User :=
  if truthyStr email then
    db.users.find? fun u => u.email == email
  else
    db.users.find? fun u => u.phone == phone

/-- `POST /activities/:slug/register` (register.ts:14-360).  The email
sender and the Razorpay order-creation call are external: `emailOk` is
the sender's outcome (inspected only by logging in the code) and
`orderResult` is the id returned by `razorpayInstance.orders.create`
(`none` = the call threw).  Returns the HTTP status and the new store. -/
def register (emailOk : Bool) (orderResult : Option String)
    (db : DB) (slug : String) (r : RegisterReq) : Nat × DB :=
  if r.firstName = "" ∨ r.lastName = "" ∨
      (¬ truthyStr r.email ∧ ¬ truthyStr r.phone) then (400, db)
  else if r.ticketCount < 1 ∨ r.ticketCount > 4 then (400, db)
  else
    match activityBySlug db slug with
    | none => (404, db)
    | some activity =>
      if ¬ (activity.isActive ∧ activity.isRegistrationOpen) then (403, db)
      else
        let organizer := activity.organizerId.bind (organizerById db)
        let razorpayKeyId := trimmedKey (organizer.bind (·.razorpayKeyId))
        let razorpayKeySecret := trimmedKey (organizer.bind (·.razorpayKeySecret))
        let paymentMethod :=
          if razorpayKeyId.isSome ∧ razorpayKeySecret.isSome then "razorpay" else "manual"
        if ¬ activity.isRegistrationOpen then (400, db)
        else if activity.type = "one-time" ∧
            ¬ (activity.status = "upcoming" ∨ activity.status = "live") then (400, db)
        else
          let bookedSlots := activity.bookedSlots.getD 0
          let availableSlots := activity.availableSlots.getD 0
          let registrationFee := activity.registrationFee.getD 0
          let (user, db1) :=
            match findUserByContact db r.email r.phone with
            | some u => (u, db)
            | none =>
                let u : User :=
                  { id := db.nextId, firstName := r.firstName, lastName := r.lastName
                    email := r.email, phone := r.phone, isActive := true }
                (u, { db with users := db.users ++ [u], nextId := db.nextId + 1 })
          let existing := registrationByActivityUser db1 activity.id user.id
          if bookedSlots + r.ticketCount > availableSlots then (400, db1)
          else
            let (registration, db2) :=
              match existing with
              | some cur =>
                  ({ cur with ticketCount := cur.ticketCount + r.ticketCount },
                    updateRegistration db1 cur.id fun g =>
                      { g with ticketCount := g.ticketCount + r.ticketCount })
              | none =>
                  let g : Registration :=
                    { id := db1.nextId, activityId := some activity.id
                      userId := some user.id, status := "registered"
                      ticketCount := r.ticketCount }
                  let db2 : DB :=
                    { db1 with
                      registrations := db1.registrations ++ [g]
                      nextId := db1.nextId + 1 }
                  (g, db2)
            let db3 :=
              if truthyStr r.email ∧ organizer.isSome then
                bumpNotifications db2
              else db2
            if registrationFee = 0 then
              (200, updateActivity db3 activity.id fun a =>
                { a with bookedSlots := a.bookedSlots.map (· + r.ticketCount) })
            else
              let payment : Payment :=
                { id := db3.nextId, registrationId := some registration.id
                  amountPaise := registrationFee * r.ticketCount
                  status := "pending", paymentMethod := paymentMethod
                  providerPaymentId := none }
              let db4 :=
                { db3 with
                  payments := db3.payments ++ [payment]
                  nextId := db3.nextId + 1 }
              if paymentMethod = "razorpay" ∧ organizer.isSome then
                match orderResult with
                | none => (500, db4)
                | some oid =>
                    (200, updatePayment db4 payment.id fun p =>
                      { p with providerPaymentId := some oid })
              else (200, db4)

/-- `handlePaymentSuccess` (webhooks.ts:88-268).  Finds the Payment by
provider order id; a Payment already `completed` is skipped.  Otherwise
the status is set to `completed` first, and each subsequent lookup
failure abandons the rest of the handler (leaving the status update in
place).  When the whole chain resolves, the activity's `bookedSlots` is
incremented by the registration's `ticketCount` (SQL `col + n`, which
keeps NULL as NULL) and the confirmation email is attempted when the user
has an email and an organizer row was joined by the route. -/
def handlePaymentSuccess (db : DB) (orderId : String)
    (organizer : Option Organizer) : DB :=
  match paymentByOrder db orderId with
  | none => db
  | some payment =>
    if payment.status = "completed" then db
    else
      let db1 := updatePayment db payment.id fun p => { p with status := "completed" }
      match payment.registrationId with
      | none => db1
      | some rid =>
        match registrationById db1 rid with
        | none => db1
        | some registration =>
          match registration.activityId with
          | none => db1
          | some aid =>
            match activityById db1 aid with
            | none => db1
            | some activity =>
              match registration.userId with
              | none => db1
              | some uid =>
                match userById db1 uid with
                | none => db1
                | some user =>
                  let db2 := updateActivity db1 activity.id fun a =>
                    { a with bookedSlots := a.bookedSlots.map (· + registration.ticketCount) }
                  if truthyStr user.email ∧ organizer.isSome then
                    bumpNotifications db2
                  else db2

/-- `handlePaymentFailed` (webhooks.ts:270-324).  No terminal-state check:
the Payment found by order id is set to `failed` and its registration to
`canceled` unconditionally. -/
def handlePaymentFailed (db : DB) (orderId : String) : DB :=
  match paymentByOrder db orderId with
  | none => db
  | some payment =>
    let db1 := updatePayment db payment.id fun p => { p with status := "failed" }
    match payment.registrationId with
    | none => db1
    | some rid =>
        updateRegistration db1 rid fun g => { g with status := "canceled" }

/-- The webhook route's inner join `payments ⋈ registrations ⋈ activities
⋈ organizers` keyed on `providerPaymentId` (webhooks.ts:33-44). -/
def webhookJoin (db : DB) (orderId : String) :
    Option (Payment × Registration × Activity × Organizer) :=
  (paymentByOrder db orderId).bind fun p =>
  p.registrationId.bind fun rid =>
  (registrationById db rid).bind fun g =>
  g.activityId.bind fun aid =>
  (activityById db aid).bind fun a =>
  a.organizerId.bind fun oid =>
  (organizerById db oid).map fun o => (p, g, a, o)

/-- The fields of the parsed webhook body that the route reads:
`event.event` and `event.payload.payment.entity.order_id`. -/
structure WebhookEvent where
  eventType : String
  orderId : String
deriving Repr, DecidableEq

/-- `POST /webhooks/razorpay` (webhooks.ts:18-86), parameterised by the
HMAC-SHA256 hex function `hmac secret message` of the crypto library.
`event` stands for `JSON.parse(body)`; `signature` is the
`x-razorpay-signature` header.  Returns the HTTP status and new store. -/
def razorpayWebhook (hmac : String → String → String) (db : DB)
    (body : String) (signature : Option String) (event : WebhookEvent) :
    Nat × DB :=
  match signature with
  | none => (400, db)
  | some sig =>
    match webhookJoin db event.orderId with
    | none => (404, db)
    | some (_, _, _, organizer) =>
      match organizer.razorpayWebhookSecret with
      | none => (500, db)
      | some secret =>
        if secret = "" then (500, db)
        else if sig ≠ hmac secret body then (400, db)
        else if event.eventType = "payment.captured" ∨ event.eventType = "order.paid" then
          (200, handlePaymentSuccess db event.orderId (some organizer))
        else if event.eventType = "payment.failed" then
          (200, handlePaymentFailed db event.orderId)
        else (200, db)

/-- `POST /verify-payment` (webhooks.ts / part_005:327-462),
parameterised by the HMAC function.  The signature is recomputed over
`orderId ++ "|" ++ paymentId` under the organizer's *key* secret; an
already-`completed` Payment short-circuits with 200 before any write. -/
def verifyPayment (hmac : String → String → String) (db : DB)
    (orderId? paymentId? signature? : Option String) : Nat × DB :=
  if ¬ (truthyStr orderId? ∧ truthyStr paymentId? ∧ truthyStr signature?) then
    (400, db)
  else
    let orderId := orderId?.getD ""
    let paymentIdStr := paymentId?.getD ""
    let signature := signature?.getD ""
    match webhookJoin db orderId with
    | none => (404, db)
    | some (payment, registration, activity, organizer) =>
      match organizer.razorpayKeySecret with
      | none => (500, db)
      | some keySecret =>
        if keySecret = "" then (500, db)
        else if hmac keySecret (orderId ++ "|" ++ paymentIdStr) ≠ signature then
          (400, db)
        else if payment.status = "completed" then (200, db)
        else
          let db1 := updatePayment db payment.id fun p => { p with status := "completed" }
          let db2 := updateActivity db1 activity.id fun a =>
            { a with bookedSlots := a.bookedSlots.map (· + registration.ticketCount) }
          let db3 :=
            match registration.userId with
            | none => db2
            | some uid =>
              match userById db2 uid with
              | none => db2
              | some user =>
                if truthyStr user.email then
                  bumpNotifications db2
                else db2
          (200, db3)

/-!
## Interleaving model of the capacity check

`POST /activities/:slug/register` reads `bookedSlots` when it fetches the
activity (register.ts:36, defaulted at :91), checks
`bookedSlots + ticketCount > availableSlots` against that *read* value
(register.ts:143/156), and later commits a relative SQL increment
`bookedSlots + ticketCount` (register.ts:248-254 on the free path).
Under concurrent requests the read and the increment are separate
database round trips, so the handler is a read phase followed by a
check-and-commit phase; the model below lets those phases of different
requests interleave against one shared activity row. -/

/-- One in-flight registration attempt: its requested ticket count, the
`bookedSlots` value it read at fetch time (`none` = not yet fetched), and
whether its increment has committed. -/
structure Attempt where
  ticketCount : Nat
  obs : Option Nat
  committed : Bool
deriving Repr, DecidableEq

/-- The shared activity row plus the in-flight requests (indexed by
request id). -/
structure SlotRace where
  availableSlots : Nat
  bookedSlots : Nat
  attempts : Nat → Option Attempt

/-- A scheduler event: request `i` performs its activity fetch, or its
capacity check followed (on success) by its slot increment. -/
inductive RaceOp where
  | read (i : Nat)
  | commit (i : Nat)
deriving Repr, DecidableEq

/-- Replace in-flight request `i`'s local state. -/
def withAttempt (st : SlotRace) (i : Nat) (a : Attempt) : SlotRace :=
  { st with attempts := fun j => if j = i then some a else st.attempts j }

theorem withAttempt_attempts (st : SlotRace) (i : Nat) (a : Attempt) (j : Nat) :
    (withAttempt st i a).attempts j = if j = i then some a else st.attempts j := rfl

theorem withAttempt_bookedSlots (st : SlotRace) (i : Nat) (a : Attempt) :
    (withAttempt st i a).bookedSlots = st.bookedSlots := rfl

theorem withAttempt_availableSlots (st : SlotRace) (i : Nat) (a : Attempt) :
    (withAttempt st i a).availableSlots = st.availableSlots := rfl

/-- The state after request `i`'s capacity check passes: the SQL
increment is applied to the current row and the request is marked
committed. -/
def commitState (st : SlotRace) (i : Nat) (a : Attempt) : SlotRace :=
  { availableSlots := st.availableSlots
    bookedSlots := st.bookedSlots + a.ticketCount
    attempts := fun j =>
      if j = i then some { a with committed := true } else st.attempts j }

theorem commitState_attempts (st : SlotRace) (i : Nat) (a : Attempt) (j : Nat) :
    (commitState st i a).attempts j
      = if j = i then some { a with committed := true } else st.attempts j := rfl

theorem commitState_bookedSlots (st : SlotRace) (i : Nat) (a : Attempt) :
    (commitState st i a).bookedSlots = st.bookedSlots + a.ticketCount := rfl

theorem commitState_availableSlots (st : SlotRace) (i : Nat) (a : Attempt) :
    (commitState st i a).availableSlots = st.availableSlots := rfl

/-- One scheduler step.  A fetch stores the current `bookedSlots` into
the request's local copy; a commit re-runs the handler's check on that
stale copy and, when it passes, applies the SQL increment to the current
row. -/
def raceStep (st : SlotRace) (op : RaceOp) : SlotRace :=
  match op with
  | .read i =>
    match st.attempts i with
    | none => st
    | some a =>
      match a.obs with
      | some _ => st
      | none => withAttempt st i { a with obs := some st.bookedSlots }
  | .commit i =>
    match st.attempts i with
    | none => st
    | some a =>
      match a.obs with
      | none => st
      | some o =>
          if a.committed = false ∧ o + a.ticketCount ≤ st.availableSlots then
            commitState st i a
          else st

/-- Run a whole schedule of interleaved steps. -/
def runRace (st : SlotRace) (ops : List RaceOp) : SlotRace :=
  ops.foldl raceStep st

/-- Sequential (non-interleaved) execution: each request's fetch is
immediately followed by its check-and-commit. -/
def runSequential (st : SlotRace) (is : List Nat) : SlotRace :=
  is.foldl (fun s i => raceStep (raceStep s (.read i)) (.commit i)) st

/-! ## Helper lemmas -/

theorem find?_isSome_eq_any {α : Type} (l : List α) (p : α → Bool) :
    (l.find? p).isSome = l.any p := by
  induction l with
  | nil => rfl
  | cons x xs ih =>
    simp only [List.find?, List.any]
    cases hp : p x <;> simp [hp, ih]

/-- The forward scan of `getRecurringActivityStatus` (the loop over
`i = 1 .. 6 - currentDayIndex` of activities.ts:52-60) agrees with the
spec's "any schedule entry on a later day of the current week". -/
theorem upcomingLoop_eq_hasLaterEntry (schedules : List Schedule) (d : Nat)
    (hd : d ≤ 6) :
    ((List.range (6 - d)).any fun i =>
        (schedules.find? fun s =>
          s.dayOfWeek == daysOfWeek.getD (d + i + 1) "").isSome)
      = hasLaterEntryThisWeek schedules d := by
  rw [Bool.eq_iff_iff]
  simp only [find?_isSome_eq_any, hasLaterEntryThisWeek, List.any_eq_true,
    List.mem_range, Bool.and_eq_true, decide_eq_true_eq]
  constructor
  · rintro ⟨i, hi, h⟩
    exact ⟨d + i + 1, by omega, by omega, h⟩
  · rintro ⟨j, hj7, hdj, h⟩
    refine ⟨j - d - 1, by omega, ?_⟩
    have hj : d + (j - d - 1) + 1 = j := by omega
    rw [hj]
    exact h

/-- The schedule set of the spec's worked example: Monday 10:00-12:00 and
Wednesday 14:00-16:00. -/
def demoSchedules : List Schedule :=
  [{ dayOfWeek := "Monday", startH := 10, startM := 0, startS := 0
     endH := 12, endM := 0, endS := 0 },
   { dayOfWeek := "Wednesday", startH := 14, startM := 0, startS := 0
     endH := 16, endM := 0, endS := 0 }]

/-- C8: for a recurring activity, `deriveStatus` returns `live` when
today's (first matching) schedule entry's window contains now, `upcoming`
when now is before that window, and otherwise — including when today has
no entry — `upcoming` exactly when some entry exists on a later day of
the current week (no wrap) and `completed` when none does; and the
spec's worked example evaluates to live / upcoming / completed. -/
theorem recurring_status_derivation :
    (∀ (schedules : List Schedule) (d ms : Nat) (ts : Schedule), d ≤ 6 →
      schedules.find? (fun s => s.dayOfWeek == daysOfWeek.getD d "") = some ts →
      timeMs ts.startH ts.startM ts.startS ≤ timeMs ts.endH ts.endM ts.endS →
      (timeMs ts.startH ts.startM ts.startS ≤ ms ∧ ms ≤ timeMs ts.endH ts.endM ts.endS →
        getRecurringActivityStatus schedules d ms = "live")
      ∧ (ms < timeMs ts.startH ts.startM ts.startS →
        getRecurringActivityStatus schedules d ms = "upcoming")
      ∧ (timeMs ts.endH ts.endM ts.endS < ms →
        getRecurringActivityStatus schedules d ms =
          if hasLaterEntryThisWeek schedules d then "upcoming" else "completed"))
    ∧ (∀ (schedules : List Schedule) (d ms : Nat), d ≤ 6 →
      schedules.find? (fun s => s.dayOfWeek == daysOfWeek.getD d "") = none →
      getRecurringActivityStatus schedules d ms =
        if hasLaterEntryThisWeek schedules d then "upcoming" else "completed")
    ∧ getRecurringActivityStatus demoSchedules 1 (timeMs 11 0 0) = "live"
    ∧ getRecurringActivityStatus demoSchedules 1 (timeMs 9 0 0) = "upcoming"
    ∧ getRecurringActivityStatus demoSchedules 4 (timeMs 12 0 0) = "completed" := by
  refine ⟨?_, ?_, by decide, by decide, by decide⟩
  · intro schedules d ms ts hd hfind hw
    have hloop := upcomingLoop_eq_hasLaterEntry schedules d hd
    simp only [getRecurringActivityStatus, hfind, hloop]
    refine ⟨?_, ?_, ?_⟩
    · intro h; rw [if_pos h]
    · intro h; rw [if_neg (by omega), if_pos h]
    · intro h; rw [if_neg (by omega), if_neg (by omega)]
  · intro schedules d ms hd hfind
    have hloop := upcomingLoop_eq_hasLaterEntry schedules d hd
    simp only [getRecurringActivityStatus, hfind, hloop]

theorem recurring_status_derivation_witness :
    getRecurringActivityStatus demoSchedules 3 (timeMs 15 0 0) = "live" :=
  (recurring_status_derivation.1 demoSchedules 3 (timeMs 15 0 0)
      { dayOfWeek := "Wednesday", startH := 14, startM := 0, startS := 0
        endH := 16, endM := 0, endS := 0 }
      (by decide) (by decide) (by decide)).1 ⟨by decide, by decide⟩

/-- A one-time activity manually set to `canceled` whose window has
elapsed, used against the read path. -/
def canceledDemo : Activity :=
  { id := 1, slug := "demo", name := "Demo", organizerId := none
    type := "one-time", status := "canceled", isActive := true
    isRegistrationOpen := false, availableSlots := some 10
    bookedSlots := some 0, registrationFee := some 0
    startDateTime := some 0, endDateTime := some 10 }

/-- C9 counterexample: the one-time read path derives `currentStatus`
from the time window even when the stored status is `canceled` — the
derivation is not bypassed, and the derived value (`completed` here)
differs from the stored `canceled`. -/
theorem one_time_canceled_counterexample :
    canceledDemo.status = "canceled" ∧
    (enrichOneTime canceledDemo 20).currentStatus = "completed" ∧
    (enrichOneTime canceledDemo 20).currentStatus ≠ canceledDemo.status := by
  decide

/-- C9 amended: on the one-time read path the derived `currentStatus` is
`upcoming` before the window, `live` inside it and `completed` after it
(for a well-formed window), for every stored status — a stored `canceled`
does not bypass the derivation; the stored row itself is returned
unchanged alongside. -/
theorem one_time_status_derivation (a : Activity) (s e now : Int)
    (hs : a.startDateTime = some s) (he : a.endDateTime = some e)
    (hse : s ≤ e) :
    ((now < s → (enrichOneTime a now).currentStatus = "upcoming")
      ∧ (s ≤ now ∧ now ≤ e → (enrichOneTime a now).currentStatus = "live")
      ∧ (e < now → (enrichOneTime a now).currentStatus = "completed"))
    ∧ (enrichOneTime a now).stored = a := by
  simp only [enrichOneTime, oneTimeCurrentStatus, hs, he]
  refine ⟨⟨?_, ?_, ?_⟩, trivial⟩
  · intro h; rw [if_neg (by omega), if_neg (by omega)]
  · intro h; rw [if_pos h]
  · intro h; rw [if_neg (by omega), if_pos (by omega)]

theorem one_time_status_derivation_witness :
    (enrichOneTime canceledDemo 5).currentStatus = "live" :=
  ((one_time_status_derivation canceledDemo 0 10 5 rfl rfl
      (by decide)).1).2.1 ⟨by decide, by decide⟩

/-- Initial state of the overbooking race: one slot free, two concurrent
single-ticket registration attempts, neither yet fetched. -/
def raceDemoInit : SlotRace :=
  { availableSlots := 1, bookedSlots := 0
    attempts := fun i =>
      if i = 0 then some { ticketCount := 1, obs := none, committed := false }
      else if i = 1 then some { ticketCount := 1, obs := none, committed := false }
      else none }

/-- C3 counterexample: with one available slot, two concurrent attempts
that both fetch before either commits each pass the stale capacity check,
and the final `bookedSlots` is 2 > `availableSlots` = 1. -/
theorem concurrent_overbooking_counterexample :
    (runRace raceDemoInit
        [RaceOp.read 0, RaceOp.read 1, RaceOp.commit 0, RaceOp.commit 1]).bookedSlots = 2
    ∧ raceDemoInit.availableSlots = 1
    ∧ raceDemoInit.availableSlots <
        (runRace raceDemoInit
          [RaceOp.read 0, RaceOp.read 1, RaceOp.commit 0, RaceOp.commit 1]).bookedSlots := by
  refine ⟨rfl, rfl, by decide⟩

/-- The inductive invariant of sequential execution: the row is within
capacity and every uncommitted attempt that has already fetched saw a
value that fails its capacity check. -/
def SeqInv (st : SlotRace) : Prop :=
  st.bookedSlots ≤ st.availableSlots ∧
  ∀ i a, st.attempts i = some a → a.committed = false →
    ∀ o, a.obs = some o → st.availableSlots < o + a.ticketCount

theorem raceStep_availableSlots (st : SlotRace) (op : RaceOp) :
    (raceStep st op).availableSlots = st.availableSlots := by
  cases op <;> simp only [raceStep] <;> (repeat' split) <;> rfl

theorem seqPair_inv (st : SlotRace) (i : Nat) (h : SeqInv st) :
    SeqInv (raceStep (raceStep st (RaceOp.read i)) (RaceOp.commit i)) := by
  obtain ⟨hb, hatt⟩ := h
  cases hA : st.attempts i with
  | none =>
      simp only [raceStep, hA]
      exact ⟨hb, hatt⟩
  | some a =>
      cases hObs : a.obs with
      | some o =>
          simp only [raceStep, hA, hObs]
          split
          · next hc =>
              exact absurd (hatt i a hA hc.1 o hObs) (by omega)
          · exact ⟨hb, hatt⟩
      | none =>
          simp only [raceStep, hA, hObs, withAttempt_attempts, eq_self_iff_true,
            if_true, withAttempt_bookedSlots, withAttempt_availableSlots]
          split
          · next hc =>
              refine ⟨?_, ?_⟩
              · rw [commitState_bookedSlots, commitState_availableSlots,
                  withAttempt_bookedSlots, withAttempt_availableSlots]
                exact hc.2
              · intro j b hj hbc o' ho'
                rw [commitState_attempts, withAttempt_attempts] at hj
                rw [commitState_availableSlots, withAttempt_availableSlots]
                by_cases hji : j = i
                · rw [if_pos hji] at hj
                  cases hj
                  exact absurd hbc (by simp)
                · rw [if_neg hji, if_neg hji] at hj
                  exact hatt j b hj hbc o' ho'
          · next hc =>
              refine ⟨hb, ?_⟩
              intro j b hj hbc o' ho'
              rw [withAttempt_attempts] at hj
              by_cases hji : j = i
              · rw [if_pos hji] at hj
                cases hj
                replace hbc : a.committed = false := hbc
                replace ho' : some st.bookedSlots = some o' := ho'
                injection ho' with ho''
                subst ho''
                have h2 : ¬ st.bookedSlots + a.ticketCount ≤ st.availableSlots :=
                  fun hle => hc ⟨hbc, hle⟩
                show st.availableSlots < st.bookedSlots + a.ticketCount
                omega
              · rw [if_neg hji] at hj
                exact hatt j b hj hbc o' ho'

theorem runSequential_inv (is : List Nat) :
    ∀ st : SlotRace, SeqInv st → SeqInv (runSequential st is) := by
  induction is with
  | nil => intro st h; exact h
  | cons i is ih =>
      intro st h
      simpa [runSequential] using ih _ (seqPair_inv st i h)

theorem runSequential_availableSlots (is : List Nat) :
    ∀ st : SlotRace, (runSequential st is).availableSlots = st.availableSlots := by
  induction is with
  | nil => intro st; rfl
  | cons i is ih =>
      intro st
      simp only [runSequential, List.foldl]
      rw [show (List.foldl _ _ is = runSequential _ is) from rfl, ih,
        raceStep_availableSlots, raceStep_availableSlots]

/-- C3 amended: when each attempt's fetch is immediately followed by its
check-and-commit (no interleaving), the final `bookedSlots` never exceeds
`availableSlots`; the claim's "regardless of interleaving" fails, as the
counterexample's stale-read interleaving overbooks. -/
theorem sequential_no_overbooking (st : SlotRace) (is : List Nat)
    (h0 : st.bookedSlots ≤ st.availableSlots)
    (hfresh : ∀ i a, st.attempts i = some a → a.obs = none) :
    (runSequential st is).bookedSlots ≤ st.availableSlots := by
  have hinv : SeqInv (runSequential st is) := by
    refine runSequential_inv is st ⟨h0, ?_⟩
    intro i a ha _ o ho
    rw [hfresh i a ha] at ho
    cases ho
  have := hinv.1
  rwa [runSequential_availableSlots] at this

theorem sequential_no_overbooking_witness :
    (runSequential raceDemoInit [0, 1]).bookedSlots ≤ raceDemoInit.availableSlots :=
  sequential_no_overbooking raceDemoInit [0, 1] (by decide)
    (by
      intro i a ha
      by_cases h0 : i = 0
      · subst h0; simp only [raceDemoInit] at ha; cases ha; rfl
      · by_cases h1 : i = 1
        · subst h1; simp only [raceDemoInit, if_neg h0] at ha; cases ha; rfl
        · simp only [raceDemoInit, if_neg h0, if_neg h1] at ha; cases ha)

/-! ## Concrete store used by witnesses and counterexamples -/

/-- An organizer with full Razorpay and email configuration. -/
def demoOrganizer : Organizer :=
  { id := 10, organizationName := "Org", organizerEmail := "org@x.com"
    systemEmail := some "sys@x.com", resendApiKey := some "re_key"
    razorpayKeyId := some "rzp_key", razorpayKeySecret := some "rzp_secret"
    razorpayWebhookSecret := some "whsec", websiteDomain := some "x.com" }

/-- A paid one-time activity owned by `demoOrganizer`. -/
def paidActivity : Activity :=
  { id := 1, slug := "yoga", name := "Yoga", organizerId := some 10
    type := "one-time", status := "upcoming", isActive := true
    isRegistrationOpen := true, availableSlots := some 5
    bookedSlots := some 0, registrationFee := some 5000
    startDateTime := some 0, endDateTime := some 1000 }

def demoUserA : User :=
  { id := 20, firstName := "Ann", lastName := "A"
    email := some "a@x.com", phone := none, isActive := true }

def demoRegistration : Registration :=
  { id := 30, activityId := some 1, userId := some 20
    status := "registered", ticketCount := 2 }

def pendingPayment : Payment :=
  { id := 40, registrationId := some 30, amountPaise := 10000
    status := "pending", paymentMethod := "razorpay"
    providerPaymentId := some "ordA" }

/-- A store holding one full payment chain awaiting reconciliation. -/
def webhookDemoDB : DB :=
  { users := [demoUserA], organizers := [demoOrganizer]
    activities := [paidActivity], registrations := [demoRegistration]
    payments := [pendingPayment], nextId := 100, notifications := 0 }

/-- A stand-in for HMAC-SHA256 hex used to instantiate witnesses (the
handlers only compare its outputs). -/
def hmacDemo (secret message : String) : String :=
  secret ++ "|" ++ message

/-! ## C6: webhook signature rejection -/

/-- C6: a webhook whose signature header differs from the HMAC of the raw
body under the owning organizer's webhook secret is rejected with 400 and
the store is returned unchanged — no Payment, Registration or Activity
row is mutated. -/
theorem webhook_bad_signature_rejected
    (hmac : String → String → String) (db : DB) (body sig : String)
    (event : WebhookEvent) (p : Payment) (g : Registration) (a : Activity)
    (o : Organizer) (secret : String)
    (hjoin : webhookJoin db event.orderId = some (p, g, a, o))
    (hsec : o.razorpayWebhookSecret = some secret) (hne : secret ≠ "")
    (hbad : sig ≠ hmac secret body) :
    razorpayWebhook hmac db body (some sig) event = (400, db) := by
  simp only [razorpayWebhook, hjoin, hsec]
  rw [if_neg hne, if_pos hbad]

theorem webhook_bad_signature_rejected_witness :
    razorpayWebhook hmacDemo webhookDemoDB "rawbody" (some "forged")
        { eventType := "payment.captured", orderId := "ordA" }
      = (400, webhookDemoDB) :=
  webhook_bad_signature_rejected hmacDemo webhookDemoDB "rawbody" "forged"
    { eventType := "payment.captured", orderId := "ordA" }
    pendingPayment demoRegistration paidActivity demoOrganizer "whsec"
    (by decide) (by decide) (by decide) (by decide)

/-! ## C2: terminal payments and reconciliation -/

/-- The demo payment already in the `failed` terminal state. -/
def failedPayment : Payment :=
  { pendingPayment with status := "failed" }

def failedDemoDB : DB :=
  { webhookDemoDB with payments := [failedPayment] }

/-- C2 counterexample: a Payment in the terminal `failed` state is *not*
protected — the success handler only checks for `completed`, so a
success-class reconciliation of a failed Payment flips it to `completed`
and increments the activity's bookedSlots, contradicting the claim that
any terminal state makes every later reconciliation a no-op. -/
theorem terminal_payment_counterexample :
    (paymentByOrder failedDemoDB "ordA").map Payment.status = some "failed" ∧
    (paymentByOrder (handlePaymentSuccess failedDemoDB "ordA" (some demoOrganizer))
        "ordA").map Payment.status = some "completed" ∧
    (activityById (handlePaymentSuccess failedDemoDB "ordA" (some demoOrganizer))
        1).map Activity.bookedSlots = some (some 2) := by
  decide

theorem webhookJoin_payment (db : DB) (oid : String)
    (quad : Payment × Registration × Activity × Organizer)
    (h : webhookJoin db oid = some quad) :
    paymentByOrder db oid = some quad.1 := by
  unfold webhookJoin at h
  cases hp : paymentByOrder db oid with
  | none => rw [hp] at h; cases h
  | some p =>
    rw [hp] at h
    simp only [Option.some_bind] at h
    cases hrid : p.registrationId with
    | none => rw [hrid] at h; cases h
    | some rid =>
      rw [hrid] at h
      simp only [Option.some_bind] at h
      cases hg : registrationById db rid with
      | none => rw [hg] at h; cases h
      | some g =>
        rw [hg] at h
        simp only [Option.some_bind] at h
        cases haid : g.activityId with
        | none => rw [haid] at h; cases h
        | some aid =>
          rw [haid] at h
          simp only [Option.some_bind] at h
          cases ha : activityById db aid with
          | none => rw [ha] at h; cases h
          | some a =>
            rw [ha] at h
            simp only [Option.some_bind] at h
            cases hoid : a.organizerId with
            | none => rw [hoid] at h; cases h
            | some orgid =>
              rw [hoid] at h
              simp only [Option.some_bind] at h
              cases ho : organizerById db orgid with
              | none => rw [ho] at h; cases h
              | some o =>
                rw [ho] at h
                simp only [Option.map_some'] at h
                cases h
                simpa using hp

/-- C2 amended: `completed` is the only guarded terminal state — once a
Payment is `completed`, the success-class webhook handler and the
verify-payment route are no-ops on the whole store; a `failed` Payment is
not protected (the counterexample re-completes it), and the failure
handler performs no terminal check at all. -/
theorem completed_payment_reconciliation_noop
    (hmac : String → String → String) (db : DB) (orderId : String)
    (org : Option Organizer) (p : Payment)
    (hfind : paymentByOrder db orderId = some p)
    (hst : p.status = "completed") :
    handlePaymentSuccess db orderId org = db ∧
    ∀ pid sig : Option String,
      (verifyPayment hmac db (some orderId) pid sig).2 = db := by
  constructor
  · simp only [handlePaymentSuccess, hfind, hst, if_pos]
  · intro pid sig
    simp only [verifyPayment, Option.getD_some]
    split
    · rfl
    · cases hj : webhookJoin db orderId with
      | none => rfl
      | some quad =>
        obtain ⟨p', g', a', o'⟩ := quad
        dsimp only
        have hp' : p' = p := by
          have := webhookJoin_payment db orderId (p', g', a', o') hj
          rw [hfind] at this
          exact (Option.some_inj.mp this).symm
        subst hp'
        cases hks : o'.razorpayKeySecret with
        | none => rfl
        | some ks =>
          repeat' split
          all_goals first | rfl | exact absurd hst (by assumption)

/-- The demo payment already in the `completed` terminal state. -/
def completedPayment : Payment :=
  { pendingPayment with status := "completed" }

def completedDemoDB : DB :=
  { webhookDemoDB with payments := [completedPayment] }

theorem completed_payment_noop_witness :
    handlePaymentSuccess completedDemoDB "ordA" (some demoOrganizer) = completedDemoDB ∧
    (verifyPayment hmacDemo completedDemoDB (some "ordA") (some "pay9") (some "s")).2
      = completedDemoDB :=
  ⟨(completed_payment_reconciliation_noop hmacDemo completedDemoDB "ordA"
      (some demoOrganizer) completedPayment (by decide) rfl).1,
   (completed_payment_reconciliation_noop hmacDemo completedDemoDB "ordA"
      (some demoOrganizer) completedPayment (by decide) rfl).2 (some "pay9") (some "s")⟩

/-! ## C4: duplicate success-webhook deliveries -/

theorem find?_map_of_pred {α : Type} (l : List α) (g : α → α) (p : α → Bool)
    (hg : ∀ x, p (g x) = p x) :
    (l.map g).find? p = (l.find? p).map g := by
  induction l with
  | nil => rfl
  | cons x xs ih =>
    simp only [List.map, List.find?]
    rw [hg]
    cases hp : p x <;> simp [hp, ih]

theorem paymentByOrder_updatePayment (db : DB) (pid : Nat)
    (f : Payment → Payment)
    (hf : ∀ q, (f q).providerPaymentId = q.providerPaymentId) (oid : String) :
    paymentByOrder (updatePayment db pid f) oid
      = (paymentByOrder db oid).map fun q => if q.id = pid then f q else q := by
  unfold paymentByOrder updatePayment
  exact find?_map_of_pred _ _ _ fun q => by
    by_cases h : q.id = pid <;> simp [h, hf]

theorem registrationById_updatePayment (db : DB) (pid : Nat)
    (f : Payment → Payment) (rid : Nat) :
    registrationById (updatePayment db pid f) rid = registrationById db rid := rfl

theorem activityById_updatePayment (db : DB) (pid : Nat)
    (f : Payment → Payment) (aid : Nat) :
    activityById (updatePayment db pid f) aid = activityById db aid := rfl

theorem userById_updatePayment (db : DB) (pid : Nat)
    (f : Payment → Payment) (uid : Nat) :
    userById (updatePayment db pid f) uid = userById db uid := rfl

theorem activityById_updateActivity (db : DB) (aid : Nat)
    (f : Activity → Activity) (hf : ∀ x, (f x).id = x.id) (aid' : Nat) :
    activityById (updateActivity db aid f) aid'
      = (activityById db aid').map fun x => if x.id = aid then f x else x := by
  unfold activityById updateActivity
  exact find?_map_of_pred _ _ _ fun x => by
    by_cases h : x.id = aid <;> simp [h, hf]

theorem activityById_bumpNotifications (db : DB) (aid : Nat) :
    activityById (bumpNotifications db) aid = activityById db aid := rfl

theorem paymentByOrder_updatePayment_status (db : DB) (pid : Nat) (oid : String) :
    paymentByOrder (updatePayment db pid fun q => { q with status := "completed" }) oid
      = (paymentByOrder db oid).map
          fun q => if q.id = pid then { q with status := "completed" } else q :=
  paymentByOrder_updatePayment db pid
    (fun q => { q with status := "completed" }) (fun _ => rfl) oid

theorem activityById_updateActivity_booked (db : DB) (aid tc aid' : Nat) :
    activityById (updateActivity db aid
        fun x => { x with bookedSlots := x.bookedSlots.map (· + tc) }) aid'
      = (activityById db aid').map
          fun x => if x.id = aid
            then { x with bookedSlots := x.bookedSlots.map (· + tc) } else x :=
  activityById_updateActivity db aid
    (fun x => { x with bookedSlots := x.bookedSlots.map (· + tc) })
    (fun _ => rfl) aid'

theorem notifications_updateActivity (db : DB) (aid : Nat)
    (f : Activity → Activity) :
    (updateActivity db aid f).notifications = db.notifications := rfl

theorem notifications_updatePayment (db : DB) (pid : Nat)
    (f : Payment → Payment) :
    (updatePayment db pid f).notifications = db.notifications := rfl

theorem notifications_updateRegistration (db : DB) (rid : Nat)
    (f : Registration → Registration) :
    (updateRegistration db rid f).notifications = db.notifications := rfl

theorem notifications_bumpNotifications (db : DB) :
    (bumpNotifications db).notifications = db.notifications + 1 := rfl

/-- A success delivery that finds no Payment for its order id leaves the
store unchanged. -/
theorem handlePaymentSuccess_none (db : DB) (oid : String)
    (org : Option Organizer) (h : paymentByOrder db oid = none) :
    handlePaymentSuccess db oid org = db := by
  simp [handlePaymentSuccess, h]

/-- A success delivery for an already-`completed` Payment is a no-op. -/
theorem handlePaymentSuccess_completed (db : DB) (oid : String)
    (org : Option Organizer) (p : Payment)
    (h : paymentByOrder db oid = some p) (hc : p.status = "completed") :
    handlePaymentSuccess db oid org = db := by
  simp [handlePaymentSuccess, h, hc]

/-- Whatever else the success handler does, the payments table afterwards
is exactly the one where the matched Payment's status was set to
`completed`. -/
theorem handlePaymentSuccess_payments (db : DB) (oid : String)
    (org : Option Organizer) (p : Payment)
    (hfind : paymentByOrder db oid = some p) (hnc : ¬ p.status = "completed") :
    (handlePaymentSuccess db oid org).payments
      = (updatePayment db p.id fun q => { q with status := "completed" }).payments := by
  simp only [handlePaymentSuccess, hfind, hnc, if_false]
  repeat' split
  all_goals rfl

/-- After a non-duplicate success delivery, the matched Payment is found
again by order id, now `completed`. -/
theorem handlePaymentSuccess_completes (db : DB) (oid : String)
    (org : Option Organizer) (p : Payment)
    (hfind : paymentByOrder db oid = some p) (hnc : ¬ p.status = "completed") :
    paymentByOrder (handlePaymentSuccess db oid org) oid
      = some { p with status := "completed" } := by
  have hpay := handlePaymentSuccess_payments db oid org p hfind hnc
  have hsame : paymentByOrder (handlePaymentSuccess db oid org) oid
      = paymentByOrder (updatePayment db p.id fun q => { q with status := "completed" }) oid := by
    unfold paymentByOrder
    rw [hpay]
  rw [hsame, paymentByOrder_updatePayment_status db p.id oid, hfind]
  simp

/-- Re-delivering a success webhook is absorbed: applying the handler a
second time changes nothing. -/
theorem handlePaymentSuccess_idem (db : DB) (oid : String)
    (org : Option Organizer) :
    handlePaymentSuccess (handlePaymentSuccess db oid org) oid org
      = handlePaymentSuccess db oid org := by
  cases hfind : paymentByOrder db oid with
  | none =>
      rw [handlePaymentSuccess_none db oid org hfind,
        handlePaymentSuccess_none db oid org hfind]
  | some p =>
      by_cases hc : p.status = "completed"
      · rw [handlePaymentSuccess_completed db oid org p hfind hc,
          handlePaymentSuccess_completed db oid org p hfind hc]
      · exact handlePaymentSuccess_completed _ oid org _
          (handlePaymentSuccess_completes db oid org p hfind hc) rfl

/-- C4: delivering the same success-class webhook N > 1 times for one
pending Payment equals delivering it once: the first delivery completes
the Payment and increments the owning activity's bookedSlots by the
registration's ticketCount (attempting at most one notification), and
every later delivery observes `completed` and performs no mutation. -/
theorem duplicate_success_webhook_once (db : DB) (oid : String)
    (org : Organizer) (p : Payment) (rid : Nat) (g : Registration)
    (aid : Nat) (a : Activity) (uid : Nat) (u : User)
    (hfind : paymentByOrder db oid = some p)
    (hpend : ¬ p.status = "completed")
    (hrid : p.registrationId = some rid)
    (hg : registrationById db rid = some g)
    (haid : g.activityId = some aid)
    (ha : activityById db aid = some a)
    (huid : g.userId = some uid)
    (hu : userById db uid = some u) :
    (∀ n : Nat,
      (fun d => handlePaymentSuccess d oid (some org))^[n + 1] db
        = handlePaymentSuccess db oid (some org)) ∧
    activityById (handlePaymentSuccess db oid (some org)) aid
      = some { a with bookedSlots := a.bookedSlots.map (· + g.ticketCount) } ∧
    (handlePaymentSuccess db oid (some org)).notifications
      = db.notifications + (if truthyStr u.email then 1 else 0) := by
  have haid' : a.id = aid := by
    have := List.find?_some ha
    simpa using this
  have hone : handlePaymentSuccess db oid (some org)
      = let db2 := updateActivity
          (updatePayment db p.id fun q => { q with status := "completed" })
          a.id fun x => { x with bookedSlots := x.bookedSlots.map (· + g.ticketCount) }
        if truthyStr u.email ∧ (some org).isSome then bumpNotifications db2 else db2 := by
    simp only [handlePaymentSuccess, hfind, hpend, if_false, hrid,
      registrationById_updatePayment, hg, haid, activityById_updatePayment, ha,
      huid, userById_updatePayment, hu]
  refine ⟨?_, ?_, ?_⟩
  · intro n
    induction n with
    | zero => rfl
    | succ k ih =>
        rw [Function.iterate_succ_apply', ih]
        exact handlePaymentSuccess_idem db oid (some org)
  · rw [hone]
    by_cases hem : truthyStr u.email = true
    · simp [hem, activityById_bumpNotifications, activityById_updateActivity_booked,
        activityById_updatePayment, ha, haid']
    · simp [hem, activityById_bumpNotifications, activityById_updateActivity_booked,
        activityById_updatePayment, ha, haid']
  · rw [hone]
    by_cases hem : truthyStr u.email = true
    · simp [hem, notifications_bumpNotifications, notifications_updateActivity,
        notifications_updatePayment]
    · simp [hem, notifications_updateActivity, notifications_updatePayment]

theorem duplicate_success_webhook_once_witness :
    activityById (handlePaymentSuccess webhookDemoDB "ordA" (some demoOrganizer)) 1
      = some { paidActivity with
          bookedSlots := paidActivity.bookedSlots.map (· + demoRegistration.ticketCount) } :=
  (duplicate_success_webhook_once webhookDemoDB "ordA" demoOrganizer
    pendingPayment 30 demoRegistration 1 paidActivity 20 demoUserA
    (by decide) (by decide) (by decide) (by decide) (by decide) (by decide)
    (by decide) (by decide)).2.1

/-! ## C5: capacity-exceeded rejection -/

/-- A free activity that is already full (1 slot, 1 booked). -/
def fullActivity : Activity :=
  { paidActivity with
    id := 2
    slug := "full"
    availableSlots := some 1
    bookedSlots := some 1
    registrationFee := some 0 }

def fullDemoDB : DB :=
  { users := [], organizers := [demoOrganizer], activities := [fullActivity]
    registrations := [], payments := [], nextId := 50, notifications := 0 }

def regReqAnn : RegisterReq :=
  { firstName := "Ann", lastName := "A", email := some "a@x.com"
    phone := none, ticketCount := 1 }

/-- C5 counterexample to "no state change": when the requester is not yet
a user, the find-or-create step runs *before* the capacity check, so the
rejected request still persists a new user row (the store differs). -/
theorem capacity_reject_state_change_counterexample :
    (register true none fullDemoDB "full" regReqAnn).1 = 400 ∧
    (register true none fullDemoDB "full" regReqAnn).2 ≠ fullDemoDB ∧
    (register true none fullDemoDB "full" regReqAnn).2.users.length
      = fullDemoDB.users.length + 1 := by
  decide

/-- C5 amended: a registration for which
`bookedSlots + ticketCount > availableSlots` is rejected with 400 and no
activity, registration or payment row changes and no notification is
attempted (in particular `bookedSlots` is unchanged) — but the user
find-or-create step has already run, so a user row created during
resolution persists. -/
theorem capacity_exceeded_rejected (emailOk : Bool) (orderResult : Option String)
    (db : DB) (slug : String) (r : RegisterReq) (act : Activity)
    (hvalid : ¬ (r.firstName = "" ∨ r.lastName = "" ∨
      (¬ truthyStr r.email ∧ ¬ truthyStr r.phone)))
    (htc : ¬ (r.ticketCount < 1 ∨ r.ticketCount > 4))
    (hact : activityBySlug db slug = some act)
    (hactive : act.isActive = true) (hrop : act.isRegistrationOpen = true)
    (hstat : ¬ (act.type = "one-time" ∧
      ¬ (act.status = "upcoming" ∨ act.status = "live")))
    (hfull : act.bookedSlots.getD 0 + r.ticketCount > act.availableSlots.getD 0) :
    (register emailOk orderResult db slug r).1 = 400 ∧
    (register emailOk orderResult db slug r).2.activities = db.activities ∧
    (register emailOk orderResult db slug r).2.registrations = db.registrations ∧
    (register emailOk orderResult db slug r).2.payments = db.payments ∧
    (register emailOk orderResult db slug r).2.notifications = db.notifications := by
  cases hu : findUserByContact db r.email r.phone with
  | none =>
      simp only [register]
      rw [if_neg hvalid, if_neg htc, hact]
      dsimp only
      rw [if_neg (not_not_intro ⟨hactive, hrop⟩), if_neg (not_not_intro hrop),
        if_neg hstat, hu]
      dsimp only
      rw [if_pos hfull]
      exact ⟨rfl, rfl, rfl, rfl, rfl⟩
  | some u =>
      simp only [register]
      rw [if_neg hvalid, if_neg htc, hact]
      dsimp only
      rw [if_neg (not_not_intro ⟨hactive, hrop⟩), if_neg (not_not_intro hrop),
        if_neg hstat, hu]
      dsimp only
      rw [if_pos hfull]
      exact ⟨rfl, rfl, rfl, rfl, rfl⟩

theorem capacity_exceeded_rejected_witness :
    (register true none fullDemoDB "full" regReqAnn).1 = 400 ∧
    (register true none fullDemoDB "full" regReqAnn).2.activities
      = fullDemoDB.activities ∧
    (register true none fullDemoDB "full" regReqAnn).2.registrations
      = fullDemoDB.registrations ∧
    (register true none fullDemoDB "full" regReqAnn).2.payments
      = fullDemoDB.payments ∧
    (register true none fullDemoDB "full" regReqAnn).2.notifications
      = fullDemoDB.notifications :=
  capacity_exceeded_rejected true none fullDemoDB "full" regReqAnn fullActivity
    (by decide) (by decide) (by decide) (by decide) (by decide) (by decide)
    (by decide)

/-! ## C10: re-registration of a canceled row -/

/-- C10: the register route's existing-registration lookup
(`registrationByActivityUser`) filters only on (activity, user) — not on
`status` — so with an existing row (canceled or not) the call increments
that row's `ticketCount` in place, and no registration's `status` field
is ever modified: a `canceled` row stays `canceled`. -/
theorem register_existing_row (emailOk : Bool) (orderResult : Option String)
    (db : DB) (slug : String) (r : RegisterReq) (act : Activity) (u : User)
    (cur : Registration)
    (hvalid : ¬ (r.firstName = "" ∨ r.lastName = "" ∨
      (¬ truthyStr r.email ∧ ¬ truthyStr r.phone)))
    (htc : ¬ (r.ticketCount < 1 ∨ r.ticketCount > 4))
    (hact : activityBySlug db slug = some act)
    (hactive : act.isActive = true) (hrop : act.isRegistrationOpen = true)
    (hstat : ¬ (act.type = "one-time" ∧
      ¬ (act.status = "upcoming" ∨ act.status = "live")))
    (hu : findUserByContact db r.email r.phone = some u)
    (hex : registrationByActivityUser db act.id u.id = some cur)
    (hcap : ¬ (act.bookedSlots.getD 0 + r.ticketCount > act.availableSlots.getD 0)) :
    (register emailOk orderResult db slug r).2.registrations
      = db.registrations.map (fun g =>
          if g.id = cur.id
          then { g with ticketCount := g.ticketCount + r.ticketCount }
          else g) ∧
    ∀ g ∈ (register emailOk orderResult db slug r).2.registrations,
      ∃ g₀ ∈ db.registrations, g.id = g₀.id ∧ g.status = g₀.status := by
  have h1 : (register emailOk orderResult db slug r).2.registrations
      = db.registrations.map (fun g =>
          if g.id = cur.id
          then { g with ticketCount := g.ticketCount + r.ticketCount }
          else g) := by
    simp only [register]
    rw [if_neg hvalid, if_neg htc, hact]
    dsimp only
    rw [if_neg (not_not_intro ⟨hactive, hrop⟩), if_neg (not_not_intro hrop),
      if_neg hstat, hu]
    dsimp only
    rw [if_neg hcap, hex]
    dsimp only
    repeat' split
    all_goals rfl
  refine ⟨h1, ?_⟩
  intro g hg
  rw [h1] at hg
  rcases List.mem_map.mp hg with ⟨g₀, hg₀, rfl⟩
  by_cases hid : g₀.id = cur.id
  · refine ⟨g₀, hg₀, ?_, ?_⟩ <;> simp [hid]
  · refine ⟨g₀, hg₀, ?_, ?_⟩ <;> simp [hid]

/-- A registration previously canceled by payment-failure reconciliation. -/
def canceledRegistration : Registration :=
  { id := 31, activityId := some 1, userId := some 20
    status := "canceled", ticketCount := 2 }

def canceledRegDB : DB :=
  { users := [demoUserA], organizers := [demoOrganizer]
    activities := [paidActivity], registrations := [canceledRegistration]
    payments := [], nextId := 70, notifications := 0 }

theorem register_existing_row_witness :
    (register true (some "ordC") canceledRegDB "yoga" regReqAnn).2.registrations
      = canceledRegDB.registrations.map (fun g =>
          if g.id = canceledRegistration.id
          then { g with ticketCount := g.ticketCount + regReqAnn.ticketCount }
          else g) :=
  (register_existing_row true (some "ordC") canceledRegDB "yoga" regReqAnn
    paidActivity demoUserA canceledRegistration
    (by decide) (by decide) (by decide) (by decide) (by decide) (by decide)
    (by decide) (by decide) (by decide)).1

/-! ## C7: confirmation-email dispatch -/

def regDemoDB : DB :=
  { users := [], organizers := [demoOrganizer], activities := [paidActivity]
    registrations := [], payments := [], nextId := 60, notifications := 0 }

/-- C7 counterexample: for a *paid* activity (registrationFee > 0) the
register route still attempts the confirmation email at registration
time — the notification counter is bumped by the register call itself,
before any payment reconciliation. -/
theorem paid_email_at_registration_counterexample :
    paidActivity.registrationFee.getD 0 > 0 ∧
    (register true (some "ordB") regDemoDB "yoga" regReqAnn).1 = 200 ∧
    (register true (some "ordB") regDemoDB "yoga" regReqAnn).2.notifications
      = regDemoDB.notifications + 1 := by
  decide

/-- C7 amended: the confirmation email is attempted at registration time
for ALL committed registrations — free and paid alike — exactly when the
request has an email and the activity's organizer row exists; and the
registration outcome does not depend on the email sender's result (the
code ignores it), so a failed notification never fails or reverses the
registration. -/
theorem registration_email_dispatch (e₁ e₂ : Bool) (o : Option String)
    (db : DB) (slug : String) (r : RegisterReq) :
    register e₁ o db slug r = register e₂ o db slug r ∧
    ∀ act, activityBySlug db slug = some act →
      ((register e₁ o db slug r).1 = 200 ∨ (register e₁ o db slug r).1 = 500) →
      (register e₁ o db slug r).2.notifications =
        db.notifications +
          if truthyStr r.email ∧ (act.organizerId.bind (organizerById db)).isSome
          then 1 else 0 := by
  refine ⟨rfl, ?_⟩
  intro act hact hres
  by_cases hvalid : (r.firstName = "" ∨ r.lastName = "" ∨
      (¬ truthyStr r.email ∧ ¬ truthyStr r.phone))
  · have hv : (register e₁ o db slug r).1 = 400 := by
      simp only [register]; rw [if_pos hvalid]
    rw [hv] at hres; simp at hres
  by_cases htc : (r.ticketCount < 1 ∨ r.ticketCount > 4)
  · have hv : (register e₁ o db slug r).1 = 400 := by
      simp only [register]; rw [if_neg hvalid, if_pos htc]
    rw [hv] at hres; simp at hres
  by_cases hopen : (act.isActive = true ∧ act.isRegistrationOpen = true)
  case neg =>
    have hv : (register e₁ o db slug r).1 = 403 := by
      simp only [register]; rw [if_neg hvalid, if_neg htc, hact]
      dsimp only
      rw [if_pos hopen]
    rw [hv] at hres; simp at hres
  case pos =>
  obtain ⟨hactive, hrop⟩ := hopen
  by_cases hstat : (act.type = "one-time" ∧
      ¬ (act.status = "upcoming" ∨ act.status = "live"))
  · have hv : (register e₁ o db slug r).1 = 400 := by
      simp only [register]; rw [if_neg hvalid, if_neg htc, hact]
      dsimp only
      rw [if_neg (not_not_intro ⟨hactive, hrop⟩), if_neg (not_not_intro hrop),
        if_pos hstat]
    rw [hv] at hres; simp at hres
  by_cases hcap : (act.bookedSlots.getD 0 + r.ticketCount > act.availableSlots.getD 0)
  · cases hu : findUserByContact db r.email r.phone with
    | none =>
        have hv : (register e₁ o db slug r).1 = 400 := by
          simp only [register]; rw [if_neg hvalid, if_neg htc, hact]
          dsimp only
          rw [if_neg (not_not_intro ⟨hactive, hrop⟩), if_neg (not_not_intro hrop),
            if_neg hstat, hu]
          dsimp only
          rw [if_pos hcap]
        rw [hv] at hres; simp at hres
    | some u =>
        have hv : (register e₁ o db slug r).1 = 400 := by
          simp only [register]; rw [if_neg hvalid, if_neg htc, hact]
          dsimp only
          rw [if_neg (not_not_intro ⟨hactive, hrop⟩), if_neg (not_not_intro hrop),
            if_neg hstat, hu]
          dsimp only
          rw [if_pos hcap]
        rw [hv] at hres; simp at hres
  · cases hu : findUserByContact db r.email r.phone with
    | none =>
        simp only [register]
        rw [if_neg hvalid, if_neg htc, hact]
        dsimp only
        rw [if_neg (not_not_intro ⟨hactive, hrop⟩), if_neg (not_not_intro hrop),
          if_neg hstat, hu]
        dsimp only
        rw [if_neg hcap]
        repeat' split
        all_goals simp_all [notifications_updateActivity,
          notifications_updateRegistration, notifications_bumpNotifications,
          notifications_updatePayment]
    | some u =>
        simp only [register]
        rw [if_neg hvalid, if_neg htc, hact]
        dsimp only
        rw [if_neg (not_not_intro ⟨hactive, hrop⟩), if_neg (not_not_intro hrop),
          if_neg hstat, hu]
        dsimp only
        rw [if_neg hcap]
        repeat' split
        all_goals simp_all [notifications_updateActivity,
          notifications_updateRegistration, notifications_bumpNotifications,
          notifications_updatePayment]

theorem registration_email_dispatch_witness :
    register true (some "ordB") regDemoDB "yoga" regReqAnn
      = register false (some "ordB") regDemoDB "yoga" regReqAnn ∧
    (register true (some "ordB") regDemoDB "yoga" regReqAnn).2.notifications
      = regDemoDB.notifications +
          (if truthyStr regReqAnn.email ∧
              (paidActivity.organizerId.bind (organizerById regDemoDB)).isSome
           then 1 else 0) :=
  ⟨(registration_email_dispatch true false (some "ordB") regDemoDB "yoga" regReqAnn).1,
   (registration_email_dispatch true false (some "ordB") regDemoDB "yoga" regReqAnn).2
     paidActivity (by decide) (Or.inl (by decide))⟩

/-! ## C1: the capacity invariant across the engine's commits -/

def overbookActivity : Activity :=
  { paidActivity with id := 3, slug := "gala", availableSlots := some 1 }

def overbookInit : DB :=
  { users := [], organizers := [demoOrganizer], activities := [overbookActivity]
    registrations := [], payments := [], nextId := 200, notifications := 0 }

def regReqBob : RegisterReq :=
  { firstName := "Bob", lastName := "B", email := some "b@x.com"
    phone := none, ticketCount := 1 }

/-- Two paid registrations against one remaining slot, both later
reconciled by success webhooks — entirely sequentially. -/
def overbookRun : DB :=
  let db1 := (register true (some "ord1") overbookInit "gala" regReqAnn).2
  let db2 := (register true (some "ord2") db1 "gala" regReqBob).2
  let db3 := handlePaymentSuccess db2 "ord1" (some demoOrganizer)
  handlePaymentSuccess db3 "ord2" (some demoOrganizer)

/-- C1 counterexample: the paid path checks capacity at registration time
against a bookedSlots that pending registrations have not yet consumed,
and success reconciliation increments unconditionally — so two sequential
paid registrations for the last slot both commit, and after their
webhooks bookedSlots = 2 > availableSlots = 1. -/
theorem capacity_invariant_counterexample :
    (activityById overbookRun 3).map (fun a => a.bookedSlots.getD 0) = some 2 ∧
    (activityById overbookRun 3).map (fun a => a.availableSlots.getD 0) = some 1 ∧
    (activityById overbookRun 3).map
        (fun a => decide (a.bookedSlots.getD 0 ≤ a.availableSlots.getD 0))
      = some false := by
  decide

/-- Branch analysis of the register route's effect on the activities
table: either it is untouched, or (free path, capacity check passed) the
matched activity's bookedSlots is incremented by the ticket count. -/
theorem register_activities (e : Bool) (o : Option String) (db : DB)
    (slug : String) (r : RegisterReq) :
    (register e o db slug r).2.activities = db.activities ∨
    ∃ act, activityBySlug db slug = some act ∧
      ¬ (act.bookedSlots.getD 0 + r.ticketCount > act.availableSlots.getD 0) ∧
      (register e o db slug r).2.activities = db.activities.map (fun x =>
        if x.id = act.id
        then { x with bookedSlots := x.bookedSlots.map (· + r.ticketCount) }
        else x) := by
  by_cases hvalid : (r.firstName = "" ∨ r.lastName = "" ∨
      (¬ truthyStr r.email ∧ ¬ truthyStr r.phone))
  · left; simp only [register]; rw [if_pos hvalid]
  by_cases htc : (r.ticketCount < 1 ∨ r.ticketCount > 4)
  · left; simp only [register]; rw [if_neg hvalid, if_pos htc]
  cases hact : activityBySlug db slug with
  | none => left; simp only [register]; rw [if_neg hvalid, if_neg htc, hact]
  | some act =>
    by_cases hopen : (act.isActive = true ∧ act.isRegistrationOpen = true)
    case neg =>
      left; simp only [register]; rw [if_neg hvalid, if_neg htc, hact]
      dsimp only
      rw [if_pos hopen]
    case pos =>
    obtain ⟨hactive, hrop⟩ := hopen
    by_cases hstat : (act.type = "one-time" ∧
        ¬ (act.status = "upcoming" ∨ act.status = "live"))
    · left; simp only [register]; rw [if_neg hvalid, if_neg htc, hact]
      dsimp only
      rw [if_neg (not_not_intro ⟨hactive, hrop⟩), if_neg (not_not_intro hrop),
        if_pos hstat]
    by_cases hcap : (act.bookedSlots.getD 0 + r.ticketCount
        > act.availableSlots.getD 0)
    · left
      cases hu : findUserByContact db r.email r.phone with
      | none =>
          simp only [register]; rw [if_neg hvalid, if_neg htc, hact]
          dsimp only
          rw [if_neg (not_not_intro ⟨hactive, hrop⟩), if_neg (not_not_intro hrop),
            if_neg hstat, hu]
          dsimp only
          rw [if_pos hcap]
      | some u =>
          simp only [register]; rw [if_neg hvalid, if_neg htc, hact]
          dsimp only
          rw [if_neg (not_not_intro ⟨hactive, hrop⟩), if_neg (not_not_intro hrop),
            if_neg hstat, hu]
          dsimp only
          rw [if_pos hcap]
    · by_cases hfee : (act.registrationFee.getD 0 = 0)
      · right
        refine ⟨act, rfl, hcap, ?_⟩
        cases hu : findUserByContact db r.email r.phone with
        | none =>
            simp only [register]; rw [if_neg hvalid, if_neg htc, hact]
            dsimp only
            rw [if_neg (not_not_intro ⟨hactive, hrop⟩), if_neg (not_not_intro hrop),
              if_neg hstat, hu]
            dsimp only
            rw [if_neg hcap]
            repeat' split
            all_goals first
              | rfl
              | exact absurd hfee (by assumption)
              | exact absurd (by assumption) hfee
        | some u =>
            simp only [register]; rw [if_neg hvalid, if_neg htc, hact]
            dsimp only
            rw [if_neg (not_not_intro ⟨hactive, hrop⟩), if_neg (not_not_intro hrop),
              if_neg hstat, hu]
            dsimp only
            rw [if_neg hcap]
            repeat' split
            all_goals first
              | rfl
              | exact absurd hfee (by assumption)
              | exact absurd (by assumption) hfee
      · left
        cases hu : findUserByContact db r.email r.phone with
        | none =>
            simp only [register]; rw [if_neg hvalid, if_neg htc, hact]
            dsimp only
            rw [if_neg (not_not_intro ⟨hactive, hrop⟩), if_neg (not_not_intro hrop),
              if_neg hstat, hu]
            dsimp only
            rw [if_neg hcap]
            repeat' split
            all_goals first
              | rfl
              | exact absurd (by assumption) hfee
        | some u =>
            simp only [register]; rw [if_neg hvalid, if_neg htc, hact]
            dsimp only
            rw [if_neg (not_not_intro ⟨hactive, hrop⟩), if_neg (not_not_intro hrop),
              if_neg hstat, hu]
            dsimp only
            rw [if_neg hcap]
            repeat' split
            all_goals first
              | rfl
              | exact absurd (by assumption) hfee

/-- C1 amended: the register operation itself preserves the invariant
`bookedSlots ≤ availableSlots` (sequentially, with unique activity ids):
the free-path increment is guarded by its capacity check and the paid
path defers the increment entirely.  The claim fails for the
reconciliation commits — the webhook / verify increment is unconditional,
and the counterexample overbooks with purely sequential operations. -/
theorem register_preserves_capacity (e : Bool) (o : Option String)
    (db : DB) (slug : String) (r : RegisterReq)
    (hids : (db.activities.map Activity.id).Nodup)
    (hinv : ∀ x ∈ db.activities,
      x.bookedSlots.getD 0 ≤ x.availableSlots.getD 0) :
    ∀ x ∈ (register e o db slug r).2.activities,
      x.bookedSlots.getD 0 ≤ x.availableSlots.getD 0 := by
  rcases register_activities e o db slug r with h | ⟨act, hact, hcap, h⟩
  · rw [h]; exact hinv
  · rw [h]
    intro x hx
    rcases List.mem_map.mp hx with ⟨b, hb, rfl⟩
    by_cases hid : b.id = act.id
    · have hact' : db.activities.find? (fun a => a.slug == slug) = some act := hact
      have hmem : act ∈ db.activities := List.mem_of_find?_eq_some hact'
      have hb_eq : b = act := List.inj_on_of_nodup_map hids hb hmem hid
      subst hb_eq
      rw [if_pos hid]
      cases hbs : b.bookedSlots with
      | none => simp
      | some n =>
          simp only [hbs, Option.map_some', Option.getD_some] at hcap ⊢
          omega
    · rw [if_neg hid]
      exact hinv b hb

theorem register_preserves_capacity_witness :
    fullActivity.bookedSlots.getD 0 ≤ fullActivity.availableSlots.getD 0 :=
  register_preserves_capacity true none fullDemoDB "full" regReqAnn
    (by decide) (by decide) fullActivity (by decide)

end Evntly
